import Mathlib

/-!
Verification of the proxi URL-rewriting worker (src/index.ts).

The development shallowly embeds the worker's code: strings are Lean
strings, JavaScript `String.prototype.replaceAll` is modelled over the
underlying character lists, `URL` objects are records of the string
fields the code reads (origin, hostname, port, pathname, protocol,
href), and the streaming `HTMLRewriter` callbacks are modelled as pure
step functions over explicit state.
-/

/-! ### JavaScript string primitives -/

/-- One step of JS `replaceAll` scanning, with explicit fuel so the
definition is structurally recursive (the fuel is initialised to the
length of the subject and each step consumes at least one character
when the pattern is nonempty).  Matches are non-overlapping and the
scan resumes after the consumed pattern, as in JavaScript. -/
def replaceAllFuel (p r : List Char) : Nat → List Char → List Char
  | 0, s => s
  | _ + 1, [] => []
  | n + 1, c :: cs =>
    if p.isPrefixOf (c :: cs) then r ++ replaceAllFuel p r n ((c :: cs).drop p.length)
    else c :: replaceAllFuel p r n cs

/-- JS `s.replaceAll(p, r)` on character lists.  The empty-pattern case
inserts the replacement at every boundary, as JavaScript does; all
patterns used by the worker (origins, hostnames, quote/slash digraphs)
are nonempty.  The replacement is inserted literally: none of the
worker's replacement strings contains a `$` escape. -/
def jsReplaceAllL (p r s : List Char) : List Char :=
  if p.isEmpty then r ++ s.flatMap (fun c => [c] ++ r)
  else replaceAllFuel p r s.length s

/-- JS `replaceAll` on strings. -/
def jsReplaceAll (p r s : String) : String := ⟨jsReplaceAllL p.data r.data s.data⟩

/-- JS `s.startsWith(pre)`. -/
def jsStartsWith (pre s : String) : Bool := pre.data.isPrefixOf s.data

/-- Occurrence test: does `p` occur as a contiguous substring of `l`?
Models JS `String.prototype.includes` and backs the no-op lemmas for
`replaceAll`. -/
def occursInB (p : List Char) : List Char → Bool
  | [] => p.isEmpty
  | c :: cs => p.isPrefixOf (c :: cs) || occursInB p cs

/-- Substring occurrence at the string level, as a decidable proposition. -/
def containsSub (pat s : String) : Prop := occursInB pat.data s.data = true

instance (pat s : String) : Decidable (containsSub pat s) := by
  unfold containsSub; infer_instance

/-! ### URL objects

A `JSURL` records exactly the string-valued fields of a WHATWG `URL`
that the worker reads.  Concrete instances below are instantiated with
the field values the platform parser produces for the given href. -/

structure JSURL where
  origin : String
  hostname : String
  port : String
  pathname : String
  protocol : String
  href : String
deriving DecidableEq

/-- `originURL.port ? hostname + ":" + port : hostname` — the
host[:port] string used by rules 4 and 5 of `rewrite` (an empty port
string is falsy in JS). -/
def hostPort (u : JSURL) : String :=
  if u.port = ("") then u.hostname else u.hostname ++ (":") ++ u.port

/-- `s.replaceAll("/", "\\/")` — escapes every slash, as used for the
JSON/JS-escaped origin rule. -/
def escapeSlashes (s : String) : String := jsReplaceAll ("/") ("\\/") s

/-- The rewrite rule engine `rewrite(originURL, publicURL)` from
src/index.ts applied to a `string | null` text.  A null text yields the
empty string.  Otherwise the six `replaceAll` calls run in source
order, each over the output of the previous one:
quote/slash and tag-open/slash digraphs, the slash-escaped origin, the
plain origin, the protocol-relative host+path form, and finally the
bare hostname. -/
def rewrite (originURL publicURL : JSURL) : Option String → String
  | none => ("")
  | some text =>
    jsReplaceAll originURL.hostname (hostPort publicURL)
      (jsReplaceAll (("//") ++ hostPort originURL ++ originURL.pathname)
        (("//") ++ hostPort publicURL ++ publicURL.pathname ++ ("/"))
        (jsReplaceAll originURL.origin publicURL.origin
          (jsReplaceAll (escapeSlashes originURL.origin)
            (escapeSlashes publicURL.origin ++ escapeSlashes publicURL.pathname)
            (jsReplaceAll ("</") (("<") ++ publicURL.origin ++ ("/"))
              (jsReplaceAll ("\x22/") (("\x22") ++ publicURL.origin ++ ("/"))
                (jsReplaceAll ("\x27/") (("\x27") ++ publicURL.origin ++ ("/")) text))))))

/-! ### The five rules as the specification states them (for claim C1) -/

/-- Spec rule 1: every occurrence of `'/`, `"/`, `</` has the public
origin inserted immediately after the delimiter (three global
replace-alls, in that order). -/
def specRule1 (publicURL : JSURL) (t : String) : String :=
  jsReplaceAll ("</") (("<") ++ publicURL.origin ++ ("/"))
    (jsReplaceAll ("\x22/") (("\x22") ++ publicURL.origin ++ ("/"))
      (jsReplaceAll ("\x27/") (("\x27") ++ publicURL.origin ++ ("/")) t))

/-- Spec rule 2: the upstream origin with every `/` escaped as `\/` is
replaced by the public origin plus public path, similarly escaped. -/
def specRule2 (originURL publicURL : JSURL) (t : String) : String :=
  jsReplaceAll (escapeSlashes originURL.origin)
    (escapeSlashes publicURL.origin ++ escapeSlashes publicURL.pathname) t

/-- Spec rule 3: the upstream origin string is replaced by the public
origin string. -/
def specRule3 (originURL publicURL : JSURL) (t : String) : String :=
  jsReplaceAll originURL.origin publicURL.origin t

/-- Spec rule 4: the protocol-relative form `//host[:port]<path>` of the
upstream is replaced by the public `//host[:port]<path>/`. -/
def specRule4 (originURL publicURL : JSURL) (t : String) : String :=
  jsReplaceAll (("//") ++ hostPort originURL ++ originURL.pathname)
    (("//") ++ hostPort publicURL ++ publicURL.pathname ++ ("/")) t

/-- Spec rule 5: the bare upstream hostname is replaced by the public
hostname with its port, if any. -/
def specRule5 (originURL publicURL : JSURL) (t : String) : String :=
  jsReplaceAll originURL.hostname (hostPort publicURL) t

/-! ### Concrete URLs for the end-to-end scenarios
(upstream `https://example.com`, proxy `https://proxy.test`) -/

/-- The upstream URL `https://example.com/` as the platform parser
produces it. -/
def urlExampleCom : JSURL :=
  ⟨"https://example.com", "example.com", "", "/", "https:", "https://example.com/"⟩

/-- The proxy request URL `https://proxy.test/https://example.com/` as
the platform parser produces it (its pathname carries the encoded
upstream reference). -/
def urlProxyTestReq : JSURL :=
  ⟨"https://proxy.test", "proxy.test", "", "/https://example.com/", "https:",
   "https://proxy.test/https://example.com/"⟩

/-! ### Streaming text-node rewriting (class TextRewriter)

`HTMLRewriter` delivers a logical text node as a sequence of chunk
events; each event carries the chunk's text and a `lastInTextNode`
flag.  `TextRewriter.text` appends the chunk to the instance buffer;
on the last chunk it replaces the node content with the rewriter
applied to the whole buffer and resets the buffer, otherwise it
removes the chunk from the output. -/

structure TextChunk where
  text : String
  lastInTextNode : Bool
deriving DecidableEq

/-- One call of `TextRewriter.text`: given the buffer before the call
and the chunk event, returns the buffer after the call and the output
action — `some s` when the chunk is replaced by `s` (the single flush),
`none` when the chunk is removed (suppressed). -/
def textStep (rw : String → String) (buffer : String) (chunk : TextChunk) :
    String × Option String :=
  let b := buffer ++ chunk.text
  if chunk.lastInTextNode then ((""), some (rw b)) else (b, none)

/-- Runs `TextRewriter.text` over a list of chunk events, threading the
buffer; returns the final buffer and the per-event output actions. -/
def runText (rw : String → String) (buffer : String) :
    List TextChunk → String × List (Option String)
  | [] => (buffer, [])
  | e :: es =>
    let step := textStep rw buffer e
    let rest := runText rw step.1 es
    (rest.1, step.2 :: rest.2)

/-- Concatenation of a node's chunks in arrival order. -/
def concatChunks : List String → String
  | [] => ("")
  | c :: cs => c ++ concatChunks cs

/-- The event sequence of one complete logical node given as (non-last
chunks, last chunk): every non-last chunk unflagged, the final chunk
flagged last. -/
def nodeEvents (node : List String × String) : List TextChunk :=
  node.1.map (fun c => ⟨c, false⟩) ++ [⟨node.2, true⟩]

/-- The output actions a complete node must produce: one suppression
per non-last chunk, then a single flush of the rewritten
concatenation. -/
def nodeOutputs (rw : String → String) (node : List String × String) :
    List (Option String) :=
  List.replicate node.1.length none ++ [some (rw (concatChunks (node.1 ++ [node.2])))]

/-! ### Attribute rewriting (class AttributeRewriter) -/

/-- A character of the JS regex class `[\w-]`: ASCII letter, digit,
underscore, or hyphen. -/
def isWordDashChar (c : Char) : Bool := c.isAlphanum || c == ('_') || c == ('-')

/-- The test `attribute.match(/^[\w-]+:\/\/.*/)`: the value starts with
one or more `[\w-]` characters followed by `://`.  Since `:` is not in
the class, the maximal run of `[\w-]` characters is the only candidate
split, so taking the longest run is equivalent to the regex. -/
def schemePrefixed (s : String) : Bool :=
  let w := s.data.takeWhile isWordDashChar
  !w.isEmpty && List.isPrefixOf [(':'), ('/'), ('/')] (s.data.drop w.length)

/-- The test `attribute.match(/^data:.*/)`. -/
def isDataValue (s : String) : Bool := List.isPrefixOf ("data:").data s.data

/-- The scheme (with trailing colon) of an origin string such as
`https://example.com`. -/
def schemeOf (origin : String) : String :=
  ⟨origin.data.takeWhile (fun c => c ≠ (':')) ++ [(':')]⟩

/-- A character of an RFC 3986 scheme after its first letter:
ALPHA / DIGIT / `+` / `-` / `.`. -/
def isURISchemeChar (c : Char) : Bool :=
  c.isAlphanum || c == ('+') || c == ('-') || c == ('.')

/-- Does the reference carry its own URI scheme (RFC 3986:
`ALPHA *( ALPHA / DIGIT / "+" / "-" / "." ) ":"`)?  Since `:` is not a
scheme character, the maximal scheme-character run is the only
candidate, so checking that it is followed by `:` is equivalent. -/
def hasURIScheme (s : String) : Bool :=
  match s.data with
  | [] => false
  | c :: rest =>
    c.isAlpha &&
      List.isPrefixOf [(':')] (rest.drop (rest.takeWhile isURISchemeChar).length)

/-- Removes the last segment of the output buffer, including its
preceding `/` if any (RFC 3986 §5.2.4, case C). -/
def dropLastSegment (out : List Char) : List Char :=
  ((out.reverse.dropWhile (fun c => c ≠ ('/'))).drop 1).reverse

/-- One pass of RFC 3986 §5.2.4 `remove_dot_segments`, with explicit
fuel (each iteration shortens the input buffer by at least one
character, so fuel equal to the input length suffices).  The five
cases A–E of the RFC are tested in order. -/
def removeDotSegmentsFuel : Nat → List Char → List Char → List Char
  | 0, _, out => out
  | n + 1, input, out =>
    match input with
    | [] => out
    | _ =>
      if List.isPrefixOf [('.'), ('.'), ('/')] input then
        removeDotSegmentsFuel n (input.drop 3) out
      else if List.isPrefixOf [('.'), ('/')] input then
        removeDotSegmentsFuel n (input.drop 2) out
      else if List.isPrefixOf [('/'), ('.'), ('/')] input then
        removeDotSegmentsFuel n (('/') :: input.drop 3) out
      else if input = [('/'), ('.')] then
        removeDotSegmentsFuel n [('/')] out
      else if List.isPrefixOf [('/'), ('.'), ('.'), ('/')] input then
        removeDotSegmentsFuel n (('/') :: input.drop 4) (dropLastSegment out)
      else if input = [('/'), ('.'), ('.')] then
        removeDotSegmentsFuel n [('/')] (dropLastSegment out)
      else if input = [('.')] ∨ input = [('.'), ('.')] then
        removeDotSegmentsFuel n [] out
      else
        match input with
        | ('/') :: rest =>
          let seg := rest.takeWhile (fun c => c ≠ ('/'))
          removeDotSegmentsFuel n (rest.drop seg.length) (out ++ ('/') :: seg)
        | c :: rest =>
          let seg := rest.takeWhile (fun c => c ≠ ('/'))
          removeDotSegmentsFuel n (rest.drop seg.length) (out ++ c :: seg)
        | [] => out

/-- RFC 3986 §5.2.4 `remove_dot_segments`. -/
def removeDotSegments (p : List Char) : List Char :=
  removeDotSegmentsFuel p.length p []

/-- Modelled from the spec: `new URL(value, base)` relative-URL
resolution is a platform primitive not present in src/; the spec asks
for standard relative-reference resolution against the upstream origin
(same scheme/host, path joined per RFC 3986 semantics).  This is RFC
3986 §5.2.2 with the base parsed from the origin string (base path
`/`, no query): a reference with its own scheme resolves to itself, a
protocol-relative `//…` reference takes the base's scheme, a
root-relative `/…` reference replaces the base path, and any other
path is merged below the base's root path; in every case dot segments
are removed from the path (§5.2.4) while the query/fragment suffix is
kept verbatim.  Textual niceties outside the spec's RFC wording
(percent-encoding, host normalization, WHATWG's treatment of `\` as
`/` and of a same-special-scheme reference as relative) are not
modelled. -/
def resolveURL (value : String) (baseOrigin : String) : String :=
  let d := value.data
  if hasURIScheme value then
    let schemePart := d.takeWhile (fun c => c ≠ (':')) ++ [(':')]
    let after := d.drop schemePart.length
    if List.isPrefixOf [('/'), ('/')] after then
      let auth := (after.drop 2).takeWhile
        (fun c => !(c == ('/') || c == ('?') || c == ('#')))
      let afterAuth := (after.drop 2).drop auth.length
      let path := afterAuth.takeWhile (fun c => !(c == ('?') || c == ('#')))
      let suffix := afterAuth.drop path.length
      ⟨schemePart ++ ('/') :: ('/') :: auth ++ removeDotSegments path ++ suffix⟩
    else
      let path := after.takeWhile (fun c => !(c == ('?') || c == ('#')))
      let suffix := after.drop path.length
      ⟨schemePart ++ removeDotSegments path ++ suffix⟩
  else if List.isPrefixOf [('/'), ('/')] d then
    let auth := (d.drop 2).takeWhile (fun c => !(c == ('/') || c == ('?') || c == ('#')))
    let afterAuth := (d.drop 2).drop auth.length
    let path := afterAuth.takeWhile (fun c => !(c == ('?') || c == ('#')))
    let suffix := afterAuth.drop path.length
    schemeOf baseOrigin ++ ⟨('/') :: ('/') :: auth ++ removeDotSegments path ++ suffix⟩
  else
    let path := d.takeWhile (fun c => !(c == ('?') || c == ('#')))
    let suffix := d.drop path.length
    if path.isEmpty then baseOrigin ++ ("/") ++ value
    else if List.isPrefixOf [('/')] path then
      baseOrigin ++ ⟨removeDotSegments path ++ suffix⟩
    else baseOrigin ++ ⟨removeDotSegments (('/') :: path) ++ suffix⟩

/-- The final step of `AttributeRewriter.element`:
`attribute.replace(/^(https?:\/\/.*)/, proxyOrigin + "/$1")`.  The
regex is anchored, `$1` is the matched prefix and the unmatched tail is
kept, so the call prefixes `proxyOrigin + "/"` exactly when the value
starts with `http://` or `https://` (even when a line terminator stops
the `.*`, the tail is preserved unchanged) and is the identity
otherwise. -/
def httpPrefixRewrite (proxyOrigin : String) (s : String) : String :=
  if jsStartsWith ("http://") s || jsStartsWith ("https://") s then
    proxyOrigin ++ ("/") ++ s
  else s

/-- The value computed by `AttributeRewriter.element` for a non-empty
attribute value: resolve against the upstream origin unless the value
already has a `scheme://` prefix or is a `data:` URI, then apply the
anchored `https?://` prefix rewrite. -/
def rewriteAttributeValue (proxy upstream : JSURL) (v : String) : String :=
  let abs := if !schemePrefixed v && !isDataValue v then resolveURL v upstream.origin else v
  httpPrefixRewrite proxy.origin abs

/-- `AttributeRewriter.element` on one element event, modelled on the
named attribute's value: an absent or empty value (falsy in JS) is left
untouched, otherwise the attribute is set to the rewritten value. -/
def attributeRewriterElement (proxy upstream : JSURL) (attr : Option String) :
    Option String :=
  match attr with
  | none => none
  | some v => if v = ("") then some v else some (rewriteAttributeValue proxy upstream v)

/-- Structural facts about a URL object that every URL produced by the
platform parser satisfies and that the identity property of the rule
engine relies on: the origin is the protocol followed by `//` and
host[:port], the hostname is nonempty, and the hostname contains no
slash. -/
def WellFormedURL (u : JSURL) : Prop :=
  u.origin = u.protocol ++ ("//") ++ hostPort u ∧
    u.hostname ≠ ("") ∧ ∀ c ∈ u.hostname.data, c ≠ ('/')

instance (u : JSURL) : Decidable (WellFormedURL u) := by
  unfold WellFormedURL; infer_instance

/-! ### Response headers and the proxy orchestrator

JS `Headers` objects are case-insensitive maps; the model uses
lowercased keys (the code's `X-Forwarded-*` names normalize to
lowercase on `set`).  A header map is a function from key to optional
value; `set` and `delete` are pointwise updates. -/

def Headers := String → Option String

/-- `headers.set(k, v)`. -/
def hset (h : Headers) (k v : String) : Headers :=
  fun q => if q = k then some v else h q

/-- `headers.delete(k)`. -/
def hdel (h : Headers) (k : String) : Headers :=
  fun q => if q = k then none else h q

/-- The incoming request, reduced to the fields the worker reads: its
parsed URL (`new URL(request.url)`) and its headers. -/
structure FetchRequest where
  url : JSURL
  headers : Headers

/-- An HTTP response: status, headers, and body (the body is the
byte/text payload; streaming is not otherwise observable here). -/
structure HttpResponse where
  status : Nat
  headers : Headers
  body : String

/-- `request.headers.get("CF-Connecting-IP") || ""` — the value set on
`X-Forwarded-For` (JS `||` turns null or the empty string into `""`). -/
def xForwardedFor (req : FetchRequest) : String :=
  match req.headers ("cf-connecting-ip") with
  | some v => if v = ("") then ("") else v
  | none => ("")

/-- The copied-and-modified response header set built by `proxy` before
the link rewrite: CORS headers set, CSP and clear-site-data deleted,
forwarding headers set (later operations are outermost). -/
def responseHeadersBase (req : FetchRequest) (upstreamHeaders : Headers) : Headers :=
  hset
    (hset
      (hset
        (hdel
          (hdel
            (hdel
              (hset
                (hset upstreamHeaders ("access-control-allow-origin") ("*"))
                ("access-control-allow-credentials") ("true"))
              ("content-security-policy"))
            ("content-security-policy-report-only"))
          ("clear-site-data"))
        ("x-forwarded-host") req.url.origin)
      ("x-forwarded-proto") req.url.protocol)
    ("x-forwarded-for") (xForwardedFor req)

/-- The full modified header set: after the base modifications, a
present `link` header value is rewritten through the rule engine
constructed as `rewrite(proxyURL, upstreamURL)`. -/
def responseHeadersFinal (req : FetchRequest) (upstreamURL : JSURL)
    (upstreamHeaders : Headers) : Headers :=
  let base := responseHeadersBase req upstreamHeaders
  match base ("link") with
  | some v => hset base ("link") (rewrite req.url upstreamURL (some v))
  | none => base

/-- `contentType?.includes("text/html")` on an optional header value
(absent is falsy). -/
def ctIncludesHtml : Option String → Bool
  | none => false
  | some s => occursInB ("text/html").data s.data

/-- The buffered-rewrite branch test:
`contentType?.startsWith("text/") || … ("application/x-javascript") ||
… ("application/javascript")`. -/
def ctRewritable : Option String → Bool
  | none => false
  | some s =>
    jsStartsWith ("text/") s || jsStartsWith ("application/x-javascript") s ||
      jsStartsWith ("application/javascript") s

/-- The orchestrator `proxy(request, upstreamURL)` from the point the
upstream response is available (the upstream fetch itself is a platform
effect, so the fetched response is an input here).  `htmlTransform`
stands for the streaming `HTMLRewriter` pipeline applied to an HTML
body.  Branches exactly as the code does: the HTML branch returns the
modified headers with the (possibly transformed) body; the buffered
text/JS branch returns `new Response(body_, upstreamResponse)`, i.e.
the rewritten body with the upstream response's own status and original
headers; anything else returns the upstream response object itself. -/
def proxy (req : FetchRequest) (upstreamURL : JSURL)
    (upstreamResponse : HttpResponse) (htmlTransform : String → String) : HttpResponse :=
  let base := responseHeadersBase req upstreamResponse.headers
  let contentType := base ("content-type")
  let responseHeaders := responseHeadersFinal req upstreamURL upstreamResponse.headers
  if ctIncludesHtml contentType then
    -- the isHtml re-check (line 113) reads the header again through
    -- String(get), which renders an absent header as the text "null"
    let ctStr :=
      match responseHeaders ("content-type") with
      | some s => s
      | none => ("null")
    let responseBody :=
      if occursInB ("text/html").data ctStr.data then htmlTransform upstreamResponse.body
      else upstreamResponse.body
    ⟨upstreamResponse.status, responseHeaders, responseBody⟩
  else if ctRewritable contentType then
    ⟨upstreamResponse.status, upstreamResponse.headers,
      rewrite req.url upstreamURL (some upstreamResponse.body)⟩
  else upstreamResponse

/-! ### The top-level fetch handler -/

/-- A line-terminator character, which the `.` of a JS regex does not
match. -/
def isLineTerm (c : Char) : Bool :=
  c == ('\n') || c == ('\r') || c == ('\u2028') || c == ('\u2029')

/-- Attempt of the routing regex `/\/(https?:)\/+(.*)/` at one
position: a `/`, then `https:` or `http:` (the greedy `s?` prefers
`https:`), then one or more slashes, then the first capture's scheme
and the rest of the line as the second capture. -/
def matchUpstreamAt (l : List Char) : Option (String × String) :=
  match l with
  | ('/') :: rest =>
    if List.isPrefixOf [('h'), ('t'), ('t'), ('p'), ('s'), (':')] rest then
      let r := rest.drop 6
      let slashes := r.takeWhile (fun c => c == ('/'))
      if slashes.isEmpty then none
      else some (("https:"), ⟨(r.drop slashes.length).takeWhile (fun c => !isLineTerm c)⟩)
    else if List.isPrefixOf [('h'), ('t'), ('t'), ('p'), (':')] rest then
      let r := rest.drop 5
      let slashes := r.takeWhile (fun c => c == ('/'))
      if slashes.isEmpty then none
      else some (("http:"), ⟨(r.drop slashes.length).takeWhile (fun c => !isLineTerm c)⟩)
    else none
  | _ => none

/-- The regex search: first matching position, scanning left to
right. -/
def findUpstreamMatch : List Char → Option (String × String)
  | [] => none
  | c :: cs =>
    match matchUpstreamAt (c :: cs) with
    | some r => some r
    | none => findUpstreamMatch cs

/-- The extracted upstream string:
`matchArray ? matchArray[1] + "//" + matchArray[2] : ""`. -/
def extractUpstream (path : String) : String :=
  match findUpstreamMatch path.data with
  | some (scheme, rest) => scheme ++ ("//") ++ rest
  | none => ("")

/-- `proxyURL.href.substr(proxyURL.origin.length)` — the request path
(plus query/fragment) after the origin. -/
def requestPath (req : FetchRequest) : String :=
  ⟨req.url.href.data.drop req.url.origin.data.length⟩

/-- Modelled from the spec: the absolute-URL parse `new URL(upstream)`
done by the router is a platform primitive not present in src/ ("if
the extracted upstream string fails to parse as an absolute URL,
respond 400 …").  The router only ever passes the empty string or a
string built as `http(s):` + `//` + rest by the routing regex, so the
model parses exactly such URLs: scheme `http://` or `https://`, a
nonempty host part (up to `/`, `?` or `#`, split at `:` into hostname
and port), and a pathname defaulting to `/`.  Anything else fails. -/
def parseAbsoluteURL (s : String) : Option JSURL :=
  let parseRest (protocol : String) (rest : List Char) : Option JSURL :=
    let hostport := rest.takeWhile (fun c => !(c == ('/') || c == ('?') || c == ('#')))
    if hostport.isEmpty then none
    else
      let after := rest.drop hostport.length
      let hostname := hostport.takeWhile (fun c => c ≠ (':'))
      let port := (hostport.drop hostname.length).drop 1
      let pathname := after.takeWhile (fun c => !(c == ('?') || c == ('#')))
      let origin := protocol ++ ("//") ++ (⟨hostport⟩ : String)
      some ⟨origin, ⟨hostname⟩, ⟨port⟩,
        (if pathname.isEmpty then ("/") else (⟨pathname⟩ : String)), protocol,
        origin ++ (if after.isEmpty then ("/") else (⟨after⟩ : String))⟩
  if jsStartsWith ("https://") s then parseRest ("https:") (s.data.drop 8)
  else if jsStartsWith ("http://") s then parseRest ("http:") (s.data.drop 7)
  else none

/-- What the handler does with a request: either an early `Response`
(the HTTPS redirect or the 400 error) or a delegation to `proxy` with
the parsed upstream URL — the upstream fetch happens only on the
`proxied` path. -/
inductive FetchOutcome where
  | earlyResponse (status : Nat) (headers : List (String × String)) (body : String)
  | proxied (upstreamURL : JSURL)
deriving DecidableEq

/-- The href after the redirect branch sets `proxyURL.protocol =
"https:"`: the branch runs only when the href starts with `http:`, and
the JS protocol setter regenerates the href with the new scheme. -/
def httpsHref (u : JSURL) : String := ("https") ++ (⟨u.href.data.drop 4⟩ : String)

/-- The default-export `fetch` handler: redirect plain HTTP to HTTPS
with the HSTS header; otherwise extract the upstream string from the
path and either delegate to `proxy` or answer 400. -/
def handleFetch (req : FetchRequest) : FetchOutcome :=
  if req.url.protocol = ("http:") then
    .earlyResponse 301
      [(("Strict-Transport-Security"), ("max-age=31536000; includeSubDomains; preload")),
        (("location"), httpsHref req.url)]
      ("http not allowed")
  else
    match parseAbsoluteURL (extractUpstream (requestPath req)) with
    | some upstreamURL => .proxied upstreamURL
    | none => .earlyResponse 400 [] ("What is that URL?")

/-! ### Concrete fixtures for counterexamples and witnesses -/

/-- A request for `https://proxy.test/https://example.com/` with no
headers. -/
def reqEx : FetchRequest := ⟨urlProxyTestReq, fun _ => none⟩

/-- Upstream response headers carrying a `link` preload and an HTML
content type. -/
def respLinkHeaders : Headers :=
  fun k =>
    if k = ("link") then some ("</style.css>; rel=preload")
    else if k = ("content-type") then some ("text/html") else none

/-- An upstream CSS response that carries a content-security-policy. -/
def respCss : HttpResponse :=
  ⟨200,
    fun k =>
      if k = ("content-type") then some ("text/css")
      else if k = ("content-security-policy") then some ("default-src") else none,
    ("body")⟩

/-- An upstream response with no content-type header at all. -/
def respBin : HttpResponse :=
  ⟨200, fun k => if k = ("x-upstream") then some ("1") else none, ("BINARY")⟩

/-- A plain-HTTP request whose path holds no parseable upstream. -/
def reqHttpBad : FetchRequest :=
  ⟨⟨"http://proxy.test", "proxy.test", "", "/notaurl", "http:",
    "http://proxy.test/notaurl"⟩, fun _ => none⟩

/-- An HTTPS request whose path holds no parseable upstream. -/
def reqHttpsBad : FetchRequest :=
  ⟨⟨"https://proxy.test", "proxy.test", "", "/notaurl", "https:",
    "https://proxy.test/notaurl"⟩, fun _ => none⟩

/-! ### Theorems -/

/-- Appending strings appends their character data. -/
theorem strData_append (a b : String) : (a ++ b).data = a.data ++ b.data := rfl

/-- String append is associative. -/
theorem strAppend_assoc (a b c : String) : a ++ b ++ c = a ++ (b ++ c) := by
  cases a; cases b; cases c
  show String.mk _ = String.mk _
  simp [String.append]

/-- The empty string is a right identity for append. -/
theorem strAppend_empty (s : String) : s ++ ("") = s := by
  cases s
  show String.mk _ = String.mk _
  simp [String.append]

/-- The empty string is a left identity for append. -/
theorem strEmpty_append (s : String) : ("") ++ s = s := by
  cases s
  show String.mk _ = String.mk _
  simp [String.append]

/-- Running one complete node's events from any starting buffer
suppresses every non-last chunk, flushes once with the rewriter applied
to buffer-plus-chunks, and leaves an empty buffer. -/
theorem runText_node (rw : String → String) (init : List String) (lastC : String)
    (b : String) :
    runText rw b (nodeEvents (init, lastC)) =
      (("" : String),
        List.replicate init.length none ++
          [some (rw (b ++ concatChunks (init ++ [lastC])))]) := by
  induction init generalizing b with
  | nil =>
    simp [nodeEvents, runText, textStep, concatChunks, strAppend_empty]
  | cons c cs ih =>
    simp only [nodeEvents, List.map_cons, List.cons_append, runText, textStep]
    simp only [nodeEvents] at ih
    simp [ih (b ++ c), List.replicate_succ, concatChunks, strAppend_assoc]

/-- Running a concatenation of event lists threads the buffer through
the first list and concatenates the outputs. -/
theorem runText_append (rw : String → String) (b : String)
    (es fs : List TextChunk) :
    runText rw b (es ++ fs) =
      ((runText rw (runText rw b es).1 fs).1,
        (runText rw b es).2 ++ (runText rw (runText rw b es).1 fs).2) := by
  induction es generalizing b with
  | nil => simp [runText]
  | cons e es ih => simp [runText, ih]

/-- C2: a logical text node delivered as chunks `init ++ [lastC]`
(non-last chunks unflagged, final chunk flagged last) produces exactly
one output write: every non-last chunk is suppressed (`none`), and the
single flushed output is the rewrite function applied to the
concatenation of all the node's chunks in arrival order. -/
theorem claim2_single_flush (rw : String → String) (init : List String)
    (lastC : String) :
    runText rw ("") (nodeEvents (init, lastC)) =
      (("" : String),
        List.replicate init.length none ++
          [some (rw (concatChunks (init ++ [lastC])))]) := by
  simpa [strEmpty_append] using runText_node rw init lastC ("")

/-- C8: the buffer is reset to the empty string immediately after every
flush (first conjunct), and consequently a sequence of complete logical
nodes processed by one instance produces, for each node, exactly the
outputs of that node alone — no text from an earlier node appears in a
later node's output (second conjunct). -/
theorem claim8_buffer_reset :
    (∀ (rw : String → String) (b s : String), (textStep rw b ⟨s, true⟩).1 = ("")) ∧
      (∀ (rw : String → String) (nodes : List (List String × String)),
        runText rw ("") (List.flatten (nodes.map nodeEvents)) =
          (("" : String), List.flatten (nodes.map (nodeOutputs rw)))) := by
  constructor
  · intro rw b s
    simp [textStep]
  · intro rw nodes
    induction nodes with
    | nil => simp [runText]
    | cons n ns ih =>
      obtain ⟨ini, lst⟩ := n
      simp only [List.map_cons, List.flatten_cons, runText_append,
        runText_node rw ini lst ("")]
      simp [ih, nodeOutputs, strEmpty_append]

/-- C1: for every origin pair and every text, `rewrite` is exactly the
composition of the five spec rules, rule 1 first, each applied to the
output of the previous one. -/
theorem claim1_rule_pipeline (originURL publicURL : JSURL) (t : String) :
    rewrite originURL publicURL (some t) =
      specRule5 originURL publicURL
        (specRule4 originURL publicURL
          (specRule3 originURL publicURL
            (specRule2 originURL publicURL (specRule1 publicURL t)))) := rfl

/-- C7: for every origin pair, `rewrite` applied to an absent (null)
text returns the empty string. -/
theorem claim7_null_empty (originURL publicURL : JSURL) :
    rewrite originURL publicURL none = ("") := rfl

/-- Characterisation of `List.isPrefixOf` by an existential tail. -/
theorem prefixOf_exists (l₁ l₂ : List Char) :
    l₁.isPrefixOf l₂ = true ↔ ∃ t, l₂ = l₁ ++ t := by
  induction l₁ generalizing l₂ with
  | nil => simp [List.isPrefixOf]
  | cons a as ih =>
    cases l₂ with
    | nil => simp [List.isPrefixOf]
    | cons b bs =>
      simp only [List.isPrefixOf, Bool.and_eq_true, beq_iff_eq, ih, List.cons_append,
        List.cons.injEq]
      constructor
      · rintro ⟨hab, t, ht⟩
        exact ⟨t, hab.symm, ht⟩
      · rintro ⟨t, hab, ht⟩
        exact ⟨hab.symm, t, ht⟩

/-- A string with a leading character is not the empty string. -/
theorem strMk_cons_ne_empty (c : Char) (l : List Char) : (⟨c :: l⟩ : String) ≠ ("") := by
  intro h
  have h2 : c :: l = ("" : String).data := congrArg String.data h
  rw [show ("" : String).data = [] from rfl] at h2
  cases h2

/-- A value starting with `http://` passes the `scheme://` test. -/
theorem schemePrefixed_http (t : List Char) :
    schemePrefixed ⟨('h')::('t')::('t')::('p')::(':')::('/')::('/')::t⟩ = true := by
  simp [schemePrefixed, List.takeWhile, isWordDashChar]

/-- A value starting with `https://` passes the `scheme://` test. -/
theorem schemePrefixed_https (t : List Char) :
    schemePrefixed ⟨('h')::('t')::('t')::('p')::('s')::(':')::('/')::('/')::t⟩ = true := by
  simp [schemePrefixed, List.takeWhile, isWordDashChar]

/-- On a value starting with `http://`, `AttributeRewriter.element`
skips resolution and prefixes the proxy origin. -/
theorem elementValue_http (p u : JSURL) (t : List Char) :
    attributeRewriterElement p u
        (some ⟨('h')::('t')::('t')::('p')::(':')::('/')::('/')::t⟩) =
      some (p.origin ++ ("/") ++ ⟨('h')::('t')::('t')::('p')::(':')::('/')::('/')::t⟩) := by
  have hne := strMk_cons_ne_empty ('h') (('t')::('t')::('p')::(':')::('/')::('/')::t)
  have hs := schemePrefixed_http t
  have hw : jsStartsWith ("http://")
      ⟨('h')::('t')::('t')::('p')::(':')::('/')::('/')::t⟩ = true :=
    (prefixOf_exists _ _).mpr ⟨t, rfl⟩
  simp [attributeRewriterElement, hne, rewriteAttributeValue, hs, httpPrefixRewrite, hw]

/-- On a value starting with `https://`, `AttributeRewriter.element`
skips resolution and prefixes the proxy origin. -/
theorem elementValue_https (p u : JSURL) (t : List Char) :
    attributeRewriterElement p u
        (some ⟨('h')::('t')::('t')::('p')::('s')::(':')::('/')::('/')::t⟩) =
      some (p.origin ++ ("/") ++ ⟨('h')::('t')::('t')::('p')::('s')::(':')::('/')::('/')::t⟩) := by
  have hne := strMk_cons_ne_empty ('h') (('t')::('t')::('p')::('s')::(':')::('/')::('/')::t)
  have hs := schemePrefixed_https t
  have hw : jsStartsWith ("https://")
      ⟨('h')::('t')::('t')::('p')::('s')::(':')::('/')::('/')::t⟩ = true :=
    (prefixOf_exists _ _).mpr ⟨t, rfl⟩
  simp [attributeRewriterElement, hne, rewriteAttributeValue, hs, httpPrefixRewrite, hw]

/-- C3: for every non-empty attribute value, `AttributeRewriter` first
resolves the value against the upstream origin when it has no
`scheme://` prefix and is not a `data:` URI, and rewrites any value
beginning with `http://` or `https://` to the literal concatenation of
the proxy origin, `/`, and the absolute URL; in particular
`src="/logo.png"` becomes
`src="https://proxy.test/https://example.com/logo.png"`. -/
theorem claim3_attribute_rewrite (proxy upstream : JSURL) (v : String) :
    (jsStartsWith ("http://") v = true ∨ jsStartsWith ("https://") v = true →
      attributeRewriterElement proxy upstream (some v) =
        some (proxy.origin ++ ("/") ++ v)) ∧
    (v ≠ ("") → schemePrefixed v = false → isDataValue v = false →
      attributeRewriterElement proxy upstream (some v) =
        some (httpPrefixRewrite proxy.origin (resolveURL v upstream.origin))) ∧
    attributeRewriterElement urlProxyTestReq urlExampleCom (some ("/logo.png")) =
      some ("https://proxy.test/https://example.com/logo.png") := by
  refine ⟨?_, ?_, ?_⟩
  · rintro (h | h)
    · obtain ⟨l⟩ := v
      obtain ⟨t, ht⟩ := (prefixOf_exists _ _).mp h
      have hl : l = ('h')::('t')::('t')::('p')::(':')::('/')::('/')::t := ht
      subst hl
      exact elementValue_http proxy upstream t
    · obtain ⟨l⟩ := v
      obtain ⟨t, ht⟩ := (prefixOf_exists _ _).mp h
      have hl : l = ('h')::('t')::('t')::('p')::('s')::(':')::('/')::('/')::t := ht
      subst hl
      exact elementValue_https proxy upstream t
  · intro hv h1 h2
    simp [attributeRewriterElement, hv, rewriteAttributeValue, h1, h2]
  · rfl

/-- Witness for C3: a concrete absolute value is prefixed with the
proxy origin, and a concrete relative value goes through resolution
followed by the prefix rewrite. -/
theorem claim3_witness :
    attributeRewriterElement urlProxyTestReq urlExampleCom
        (some ("https://other.example/x")) =
      some ("https://proxy.test/https://other.example/x") ∧
    attributeRewriterElement urlProxyTestReq urlExampleCom (some ("img.png")) =
      some (httpPrefixRewrite urlProxyTestReq.origin
        (resolveURL ("img.png") urlExampleCom.origin)) :=
  ⟨by
    have h := (claim3_attribute_rewrite urlProxyTestReq urlExampleCom
      ("https://other.example/x")).1 (Or.inr (by decide))
    exact h,
   (claim3_attribute_rewrite urlProxyTestReq urlExampleCom ("img.png")).2.1
     (by decide) (by decide) (by decide)⟩

/-- Characterisation of the occurrence test by an explicit split. -/
theorem occursInB_iff (p l : List Char) :
    occursInB p l = true ↔ ∃ u v, l = u ++ p ++ v := by
  induction l with
  | nil =>
    simp only [occursInB, List.isEmpty_iff]
    constructor
    · intro h
      exact ⟨[], [], by simp [h]⟩
    · rintro ⟨u, v, h⟩
      rcases List.append_eq_nil.mp (List.append_eq_nil.mp h.symm).1 with ⟨-, h2⟩
      exact h2
  | cons c cs ih =>
    simp only [occursInB, Bool.or_eq_true, prefixOf_exists, ih]
    constructor
    · rintro (⟨t, ht⟩ | ⟨u, v, h⟩)
      · exact ⟨[], t, by simp [ht]⟩
      · exact ⟨c :: u, v, by simp [h]⟩
    · rintro ⟨u, v, h⟩
      cases u with
      | nil => exact Or.inl ⟨v, by simpa using h⟩
      | cons a u =>
        simp only [List.cons_append] at h
        injection h with h1 h2
        exact Or.inr ⟨u, v, h2⟩

/-- Substring occurrence is transitive. -/
theorem containsSub_trans (a b c : String) (h1 : containsSub a b)
    (h2 : containsSub b c) : containsSub a c := by
  unfold containsSub at h1 h2 ⊢
  rw [occursInB_iff] at h1 h2 ⊢
  obtain ⟨u1, v1, e1⟩ := h1
  obtain ⟨u2, v2, e2⟩ := h2
  exact ⟨u2 ++ u1, v1 ++ v2, by simp [e2, e1]⟩

/-- A `replaceAll` scan over a subject that does not contain the
pattern leaves the subject unchanged, for any fuel. -/
theorem replaceAllFuel_no_occur (p r : List Char) :
    ∀ (n : Nat) (s : List Char), occursInB p s = false → replaceAllFuel p r n s = s := by
  intro n
  induction n with
  | zero => intro s _; rfl
  | succ n ih =>
    intro s h
    cases s with
    | nil => rfl
    | cons c cs =>
      have h1 : p.isPrefixOf (c :: cs) = false := by
        cases hx : p.isPrefixOf (c :: cs)
        · rfl
        · rw [occursInB, hx] at h; simp at h
      have h2 : occursInB p cs = false := by
        cases hx : occursInB p cs
        · rfl
        · rw [occursInB, hx] at h; simp at h
      simp [replaceAllFuel, h1, ih cs h2]

/-- The empty pattern occurs in every subject. -/
theorem occursInB_nil (l : List Char) : occursInB [] l = true := by
  cases l <;> simp [occursInB, List.isPrefixOf]

/-- JS `replaceAll` with a pattern that does not occur in the subject
is the identity. -/
theorem jsReplaceAll_no_occur (p r s : String) (h : ¬ containsSub p s) :
    jsReplaceAll p r s = s := by
  obtain ⟨lp⟩ := p
  obtain ⟨ls⟩ := s
  have hb : occursInB lp ls = false := by
    cases hx : occursInB lp ls
    · rfl
    · exact absurd hx h
  have hpe : lp.isEmpty = false := by
    cases lp with
    | nil => rw [occursInB_nil] at hb; cases hb
    | cons a as => rfl
  show (⟨jsReplaceAllL lp r.data ls⟩ : String) = ⟨ls⟩
  simp only [jsReplaceAllL, hpe, Bool.false_eq_true, if_false]
  exact congrArg String.mk (replaceAllFuel_no_occur lp r.data ls.length ls hb)

/-- A single-character `replaceAll` scan is a character-wise flat map
(given enough fuel). -/
theorem replaceAllFuel_single (c : Char) (r : List Char) :
    ∀ (n : Nat) (l : List Char), l.length ≤ n →
      replaceAllFuel [c] r n l = l.flatMap (fun x => if x = c then r else [x]) := by
  intro n
  induction n with
  | zero =>
    intro l h
    obtain rfl := List.length_eq_zero.mp (Nat.le_zero.mp h)
    simp [replaceAllFuel]
  | succ n ih =>
    intro l h
    cases l with
    | nil => simp [replaceAllFuel]
    | cons a as =>
      have hlen : as.length ≤ n := Nat.le_of_succ_le_succ (by simpa using h)
      by_cases hac : a = c
      · subst hac
        have hpre : List.isPrefixOf [a] (a :: as) = true := by simp [List.isPrefixOf]
        simp [replaceAllFuel, hpre, ih as hlen]
      · have hpre : List.isPrefixOf [c] (a :: as) = false := by
          simp [List.isPrefixOf]
          exact fun hca => absurd hca.symm hac
        simp [replaceAllFuel, hpre, ih as hlen, hac]

/-- The character data of `escapeSlashes`: each `/` becomes `\/`. -/
theorem escapeSlashes_data (s : String) :
    (escapeSlashes s).data =
      s.data.flatMap (fun x => if x = ('/') then [('\\'), ('/')] else [x]) := by
  obtain ⟨ls⟩ := s
  show jsReplaceAllL [('/')] [('\\'), ('/')] ls = _
  rw [jsReplaceAllL]
  have hpe : ([('/')] : List Char).isEmpty = false := rfl
  simp only [hpe, Bool.false_eq_true, if_false]
  exact replaceAllFuel_single ('/') _ ls.length ls (Nat.le_refl _)

/-- Slash-escaping is the identity on a slash-free character list. -/
theorem flatMap_esc_id (l : List Char) (h : ∀ c ∈ l, c ≠ ('/')) :
    l.flatMap (fun x => if x = ('/') then [('\\'), ('/')] else [x]) = l := by
  induction l with
  | nil => simp
  | cons a as ih =>
    have ha : a ≠ ('/') := h a (by simp)
    simp [ha, ih (fun c hc => h c (by simp [hc]))]

/-- A slash-free substring survives slash-escaping of the ambient
string. -/
theorem containsSub_escape (sub s : String) (hsub : ∀ c ∈ sub.data, c ≠ ('/'))
    (h : containsSub sub s) : containsSub sub (escapeSlashes s) := by
  unfold containsSub at h ⊢
  rw [occursInB_iff] at h ⊢
  obtain ⟨u, v, e⟩ := h
  refine ⟨u.flatMap (fun x => if x = ('/') then [('\\'), ('/')] else [x]),
    v.flatMap (fun x => if x = ('/') then [('\\'), ('/')] else [x]), ?_⟩
  rw [escapeSlashes_data, e]
  simp [List.flatMap_append, flatMap_esc_id sub.data hsub]

/-- The hostname occurs in the origin of a well-formed URL. -/
theorem contains_hostname_origin (u : JSURL)
    (horg : u.origin = u.protocol ++ ("//") ++ hostPort u) :
    containsSub u.hostname u.origin := by
  unfold containsSub
  rw [occursInB_iff, horg]
  by_cases hp : u.port = ("")
  · exact ⟨(u.protocol ++ ("//")).data, [],
      by simp [hostPort, hp, strData_append, List.append_assoc]⟩
  · exact ⟨(u.protocol ++ ("//")).data, ((":") ++ u.port).data,
      by simp [hostPort, hp, strData_append, List.append_assoc]⟩

/-- The hostname occurs in the protocol-relative host+path pattern. -/
theorem contains_hostname_relative (u : JSURL) :
    containsSub u.hostname (("//") ++ hostPort u ++ u.pathname) := by
  unfold containsSub
  rw [occursInB_iff]
  by_cases hp : u.port = ("")
  · exact ⟨("//").data, u.pathname.data,
      by simp [hostPort, hp, strData_append, List.append_assoc]⟩
  · exact ⟨("//").data, ((":") ++ u.port ++ u.pathname).data,
      by simp [hostPort, hp, strData_append, List.append_assoc]⟩

/-- C5 (amended): for a well-formed first URL argument, every text that
contains no occurrence of that URL's hostname — hence none of its
origin either — and none of the delimiter digraphs `'/`, `"/`, `</` is
returned unchanged by the rule engine. -/
theorem claim5_identity (originURL publicURL : JSURL) (t : String)
    (hwf : WellFormedURL originURL)
    (h1 : ¬ containsSub ("\x27/") t) (h2 : ¬ containsSub ("\x22/") t)
    (h3 : ¬ containsSub ("</") t) (h4 : ¬ containsSub originURL.hostname t) :
    rewrite originURL publicURL (some t) = t := by
  obtain ⟨horg, hne, hns⟩ := hwf
  have hho : containsSub originURL.hostname originURL.origin :=
    contains_hostname_origin originURL horg
  have h5 : ¬ containsSub originURL.origin t :=
    fun hc => h4 (containsSub_trans _ _ _ hho hc)
  have hesc : containsSub originURL.hostname (escapeSlashes originURL.origin) :=
    containsSub_escape _ _ hns hho
  have h6 : ¬ containsSub (escapeSlashes originURL.origin) t :=
    fun hc => h4 (containsSub_trans _ _ _ hesc hc)
  have hrel : containsSub originURL.hostname
      (("//") ++ hostPort originURL ++ originURL.pathname) :=
    contains_hostname_relative originURL
  have h7 : ¬ containsSub (("//") ++ hostPort originURL ++ originURL.pathname) t :=
    fun hc => h4 (containsSub_trans _ _ _ hrel hc)
  simp only [rewrite]
  rw [jsReplaceAll_no_occur _ _ t h1, jsReplaceAll_no_occur _ _ t h2,
    jsReplaceAll_no_occur _ _ t h3, jsReplaceAll_no_occur _ _ t h6,
    jsReplaceAll_no_occur _ _ t h5, jsReplaceAll_no_occur _ _ t h7,
    jsReplaceAll_no_occur _ _ t h4]

/-- Counterexample to C5 as stated: the text `'/` contains neither the
upstream origin nor the upstream hostname, yet the rule engine changes
it (rule 1 fires on the quote/slash digraph alone). -/
theorem claim5_counterexample :
    ¬ containsSub urlExampleCom.origin ("\x27/") ∧
      ¬ containsSub urlExampleCom.hostname ("\x27/") ∧
      rewrite urlExampleCom urlProxyTestReq (some ("\x27/")) ≠ ("\x27/") := by
  decide

/-- Witness for C5 (amended) at a concrete unrelated text. -/
theorem claim5_witness :
    rewrite urlExampleCom urlProxyTestReq (some ("hello world")) = ("hello world") :=
  claim5_identity urlExampleCom urlProxyTestReq ("hello world")
    (by decide) (by decide) (by decide) (by decide) (by decide)

/-- The base header modifications do not touch the `link` header. -/
theorem responseHeadersBase_link (req : FetchRequest) (upstreamHeaders : Headers) :
    responseHeadersBase req upstreamHeaders ("link") = upstreamHeaders ("link") := by
  simp [responseHeadersBase, hset, hdel]

/-- C4 (amended): the orchestrator rewrites a present `link` header
value with the rule engine instance it constructs for the request
(`rewrite(proxyURL, upstreamURL)`); since the upstream URL is that
instance's `publicURL` argument, `</style.css>; rel=preload` is
rewritten to `<https://example.com/style.css>; rel=preload` in the
standard scenario. -/
theorem claim4_link_rewrite (req : FetchRequest) (upstreamURL : JSURL)
    (upstreamHeaders : Headers) :
    responseHeadersFinal req upstreamURL upstreamHeaders ("link") =
      Option.map (fun v => rewrite req.url upstreamURL (some v))
        (upstreamHeaders ("link")) ∧
    rewrite urlProxyTestReq urlExampleCom (some ("</style.css>; rel=preload")) =
      ("<https://example.com/style.css>; rel=preload") := by
  constructor
  · have hbase := responseHeadersBase_link req upstreamHeaders
    cases hl : upstreamHeaders ("link") with
    | none => simp [responseHeadersFinal, hbase, hl]
    | some v => simp [responseHeadersFinal, hbase, hl, hset]
  · decide

/-- Counterexample to C4 as stated: in the standard scenario the
rewritten `link` header does not point at the proxy — the rule engine
is constructed with the proxy URL as its first (origin) argument, so
rule 1 inserts the upstream origin, not the proxy origin. -/
theorem claim4_counterexample :
    responseHeadersFinal reqEx urlExampleCom respLinkHeaders ("link") ≠
      some ("<https://proxy.test/style.css>; rel=preload") := by
  decide

/-- C6 (amended): the modified header set always satisfies the
bit-exact contract (CORS headers set, CSP and clear-site-data absent,
forwarding headers set), but only the streaming HTML branch returns
it: the buffered text/JS branch and the binary passthrough both return
the upstream response's original headers. -/
theorem claim6_headers (req : FetchRequest) (upstreamURL : JSURL)
    (resp : HttpResponse) (htmlTransform : String → String) :
    (responseHeadersFinal req upstreamURL resp.headers ("access-control-allow-origin") =
        some ("*") ∧
      responseHeadersFinal req upstreamURL resp.headers ("access-control-allow-credentials") =
        some ("true") ∧
      responseHeadersFinal req upstreamURL resp.headers ("content-security-policy") = none ∧
      responseHeadersFinal req upstreamURL resp.headers ("content-security-policy-report-only") =
        none ∧
      responseHeadersFinal req upstreamURL resp.headers ("clear-site-data") = none ∧
      responseHeadersFinal req upstreamURL resp.headers ("x-forwarded-host") =
        some req.url.origin ∧
      responseHeadersFinal req upstreamURL resp.headers ("x-forwarded-proto") =
        some req.url.protocol ∧
      responseHeadersFinal req upstreamURL resp.headers ("x-forwarded-for") =
        some (xForwardedFor req)) ∧
    (proxy req upstreamURL resp htmlTransform).headers =
      (if ctIncludesHtml (responseHeadersBase req resp.headers ("content-type")) then
        responseHeadersFinal req upstreamURL resp.headers
      else resp.headers) := by
  constructor
  · cases hl : responseHeadersBase req resp.headers ("link") with
    | none =>
      simp only [responseHeadersFinal, hl]
      refine ⟨?_, ?_, ?_, ?_, ?_, ?_, ?_, ?_⟩ <;>
        simp [responseHeadersBase, hset, hdel]
    | some v =>
      simp only [responseHeadersFinal, hl]
      refine ⟨?_, ?_, ?_, ?_, ?_, ?_, ?_, ?_⟩ <;>
        simp [responseHeadersBase, hset, hdel]
  · cases hct : ctIncludesHtml (responseHeadersBase req resp.headers ("content-type")) with
    | true => simp [proxy, hct]
    | false =>
      cases hrw : ctRewritable (responseHeadersBase req resp.headers ("content-type")) with
      | true => simp [proxy, hct, hrw]
      | false => simp [proxy, hct, hrw]

/-- Counterexample to C6 as stated: a `text/css` upstream response is
answered through the buffered branch with the upstream's own headers —
the returned response does not carry `access-control-allow-origin: *`
and still carries the upstream `content-security-policy`. -/
theorem claim6_counterexample :
    (proxy reqEx urlExampleCom respCss id).headers ("access-control-allow-origin") ≠
        some ("*") ∧
      (proxy reqEx urlExampleCom respCss id).headers ("content-security-policy") ≠
        none := by
  decide

/-- C10: when the upstream response has no content-type header at all,
both branch tests are false and the orchestrator returns the upstream
response object itself — status, headers and body exactly as received,
without the modified header set. -/
theorem claim10_passthrough (req : FetchRequest) (upstreamURL : JSURL)
    (resp : HttpResponse) (htmlTransform : String → String)
    (hct : resp.headers ("content-type") = none) :
    proxy req upstreamURL resp htmlTransform = resp := by
  have hbase : responseHeadersBase req resp.headers ("content-type") = none := by
    simp [responseHeadersBase, hset, hdel, hct]
  simp [proxy, hbase, ctIncludesHtml, ctRewritable]

/-- Witness for C10 at a concrete response without a content type. -/
theorem claim10_witness : proxy reqEx urlExampleCom respBin id = respBin :=
  claim10_passthrough reqEx urlExampleCom respBin id (by decide)

/-- C9 (amended): for every request that is not redirected (scheme not
plain `http:`), if the extracted upstream string does not parse as an
absolute URL the handler answers 400 with body `What is that URL?`; the
`earlyResponse` outcome is disjoint from the `proxied` outcome, so no
upstream fetch is attempted. -/
theorem claim9_bad_url (req : FetchRequest) (hp : req.url.protocol ≠ ("http:"))
    (hparse : parseAbsoluteURL (extractUpstream (requestPath req)) = none) :
    handleFetch req = .earlyResponse 400 [] ("What is that URL?") := by
  simp [handleFetch, hp, hparse]

/-- Witness for C9 at a concrete HTTPS request whose path yields no
upstream URL. -/
theorem claim9_witness :
    handleFetch reqHttpsBad = .earlyResponse 400 [] ("What is that URL?") :=
  claim9_bad_url reqHttpsBad (by decide) (by decide)

/-- Counterexample to C9 as stated: a plain-HTTP request whose
extracted upstream string does not parse is answered with the 301
redirect, not with the 400 error. -/
theorem claim9_counterexample :
    parseAbsoluteURL (extractUpstream (requestPath reqHttpBad)) = none ∧
      handleFetch reqHttpBad ≠ .earlyResponse 400 [] ("What is that URL?") := by
  decide
